import Mathlib

/-!
Verification of the Type-Directed Generation & Dispatch Engine
(`src/marvin/ai/text.py`) against its natural-language specification.

The Python source is shallowly embedded: the Model Service (the external
LLM transport) is an oracle parameter, local tool execution
(`marvin.utilities.tools.call_function_tool`, a collaborator outside this
core) is an abstract function parameter, and stateful loops become
structurally recursive Lean functions whose extra `Nat` argument carries
the Python loop's own counter (`max_tool_usage_times`) or, for `while`
loops with no counter, an explicit fuel bound modelling partiality.
-/

namespace Marvin

/-! ## Model Service interface

`generate_llm_response` sends a transcript to the model and returns a
reply together with locally executed tool outputs (`_get_tool_outputs`).
A reply is a message content plus the list of tool calls the model
requested.  The oracle is indexed by the number of Model Service calls
made so far (the running transcript is a function of that history) and by
the `tool_choice` the loop computed for the turn. -/

/-- A tool call requested by the model: function name, call id, argument JSON. -/
structure ToolCall where
  name : String
  id : String
  args : String
deriving DecidableEq

/-- One Model Service reply: message content and requested tool calls. -/
structure ModelReply where
  content : String
  toolCalls : List ToolCall
deriving DecidableEq

/-- `tool_choice` as computed by the loop: `"auto"` or a forced function call. -/
inductive ToolChoice where
  | auto : ToolChoice
  | forced (name : String) : ToolChoice
deriving DecidableEq

/-- `ToolOutput(tool_name=..., tool_id=..., output=...)` from `_get_tool_outputs`:
the locally computed result of one tool call. -/
structure ToolOut where
  tool_name : String
  tool_id : String
  output : String
deriving DecidableEq

/-- Error taxonomy named by the specification for the tool-forcing loop.
`generationExhausted` is the error the spec says is raised when the turn
budget runs out without a final answer. -/
inductive GenError where
  | generationExhausted : GenError
deriving DecidableEq

/-- Embedding of the `while max_tool_usage_times > 0` loop of
`_generate_typed_llm_response_with_tool` (text.py lines 191-243).

State: remaining budget (`max_tool_usage_times`), the sticky flag
`model_didnt_call_function` (set when a turn produced no tool output and
never reset), and the number of Model Service calls made so far.

Each iteration: compute `tool_choice` (`"auto"` iff `max_tool_usage_times
> 1 and not model_didnt_call_function`, otherwise forced to the return
tool); query the Model Service oracle; execute every requested tool call
locally via `exec`; if some output came from the return tool, return its
output; otherwise feed outputs back (carried by the oracle index) and
decrement the budget.  When the `while` condition fails, the Python
function falls off its end and returns `None`: that is `Except.ok none`.
The second component counts Model Service calls. -/
def generate_typed_llm_response_with_tool
    (returnToolName : String) (exec : ToolCall → String)
    (oracle : Nat → ToolChoice → ModelReply) :
    Nat → Bool → Nat → Except GenError (Option String) × Nat
  | 0, _, calls => (Except.ok none, calls)
  | budget + 1, model_didnt_call_function, calls =>
    let tool_choice :=
      if budget + 1 > 1 ∧ ¬model_didnt_call_function then ToolChoice.auto
      else ToolChoice.forced returnToolName
    let reply := oracle calls tool_choice
    let tool_outputs := reply.toolCalls.map
      (fun tc => ToolOut.mk tc.name tc.id (exec tc))
    let didnt := model_didnt_call_function || tool_outputs.isEmpty
    let return_res := (tool_outputs.filter
      (fun t => t.tool_name == returnToolName)).map (fun t => t.output)
    match return_res with
    | r :: _ => (Except.ok (some r), calls + 1)
    | [] =>
      generate_typed_llm_response_with_tool returnToolName exec oracle
        budget didnt (calls + 1)

/-- Entry point of the loop: full budget, flag clear, zero calls made. -/
def run_response_generator (returnToolName : String) (exec : ToolCall → String)
    (oracle : Nat → ToolChoice → ModelReply) (budget : Nat) :
    Except GenError (Option String) × Nat :=
  generate_typed_llm_response_with_tool returnToolName exec oracle budget false 0

/-- The Model Service call count the loop reports grows by at most the
remaining budget. -/
theorem generate_tool_calls_le (returnToolName : String) (exec : ToolCall → String)
    (oracle : Nat → ToolChoice → ModelReply) :
    ∀ (budget : Nat) (flag : Bool) (calls : Nat),
      (generate_typed_llm_response_with_tool returnToolName exec oracle
        budget flag calls).2 ≤ calls + budget := by
  intro budget
  induction budget with
  | zero =>
    intro flag calls
    simp [generate_typed_llm_response_with_tool]
  | succ b ih =>
    intro flag calls
    rw [generate_typed_llm_response_with_tool]
    split
    · simp
    · exact le_trans (ih _ (calls + 1)) (by omega)

/-- If no Model Service reply ever requests the return tool, the loop
runs its full budget and returns `Except.ok none` — Python's implicit
`return None` at the end of the function body. -/
theorem generate_tool_exhaustion (returnToolName : String) (exec : ToolCall → String)
    (oracle : Nat → ToolChoice → ModelReply)
    (hnever : ∀ i c, ∀ tc ∈ (oracle i c).toolCalls, tc.name ≠ returnToolName) :
    ∀ (budget : Nat) (flag : Bool) (calls : Nat),
      generate_typed_llm_response_with_tool returnToolName exec oracle
        budget flag calls = (Except.ok none, calls + budget) := by
  intro budget
  induction budget with
  | zero =>
    intro flag calls
    simp [generate_typed_llm_response_with_tool]
  | succ b ih =>
    intro flag calls
    rw [generate_typed_llm_response_with_tool]
    have hfilter : ∀ (tcs : List ToolCall) (i : Nat) (c : ToolChoice),
        tcs = (oracle i c).toolCalls →
        ((tcs.map (fun tc => ToolOut.mk tc.name tc.id (exec tc))).filter
          (fun t => t.tool_name == returnToolName)).map (fun t => t.output) = [] := by
      intro tcs i c htc
      rw [List.map_eq_nil_iff, List.filter_eq_nil_iff]
      intro t ht
      rcases List.mem_map.mp ht with ⟨tc, htcmem, rfl⟩
      simp only [beq_iff_eq]
      exact hnever i c tc (htc ▸ htcmem)
    split
    · next r rest heq =>
      exact absurd (heq ▸ hfilter _ _ _ rfl) (by simp)
    · next heq =>
      rw [ih]
      simp only [Prod.mk.injEq, true_and]
      omega

/-- C1: the claim states that when the turn budget is exhausted without a
final-answer tool output, `_generate_typed_llm_response_with_tool` fails
with a GenerationExhausted error reported to the caller.  Counterexample:
with budget 1 and a Model Service that calls no tool at all, the loop
falls off the end of the Python function body and returns `None` — a
non-failure value — so the result is `Except.ok none` and in particular
is not the claimed `GenerationExhausted` error. -/
theorem claim_C1_counterexample :
    (run_response_generator "final_answer" (fun _ => "")
      (fun _ _ => ModelReply.mk "no tool call" []) 1).1 = Except.ok none ∧
    (run_response_generator "final_answer" (fun _ => "")
      (fun _ _ => ModelReply.mk "no tool call" []) 1).1
      ≠ Except.error GenError.generationExhausted := by
  constructor
  · rfl
  · intro h
    simp [run_response_generator, generate_typed_llm_response_with_tool] at h

/-- C1 (amended): for every call to the Response Generator with turn
budget `N ≥ 1`, if the budget is exhausted without any turn producing an
output from the final-answer tool, the call returns Python's `None`
(`Except.ok none`) to the caller — it silently returns a non-failure
value; no GenerationExhausted error is raised.  Exactly `N` Model Service
turns occur. -/
theorem claim_C1_amended (rt : String) (exec : ToolCall → String)
    (oracle : Nat → ToolChoice → ModelReply) (N : Nat) (hN : 1 ≤ N)
    (hnever : ∀ i c, ∀ tc ∈ (oracle i c).toolCalls, tc.name ≠ rt) :
    run_response_generator rt exec oracle N = (Except.ok none, N) := by
  unfold run_response_generator
  rw [generate_tool_exhaustion rt exec oracle hnever]
  simp

/-- Witness for C1 (amended) at budget 1 and a tool-free Model Service. -/
theorem claim_C1_witness :
    run_response_generator "final_answer" (fun _ => "")
      (fun _ _ => ModelReply.mk "m" []) 1 = (Except.ok none, 1) :=
  claim_C1_amended "final_answer" (fun _ => "") (fun _ _ => ModelReply.mk "m" []) 1
    (by omega) (by intro i c tc h; simp at h)

/-- C2: for every call to the Response Generator with turn budget
`N ≥ 1`: (i) at most `N` Model Service turns occur before the call ends,
and the loop terminates (the total function returns a pair whose call
count is bounded); (ii) on every turn, either the turn returns a
final-answer output after one more Model Service call, or the loop
continues with the remaining tool budget strictly decreased by one. -/
theorem claim_C2_budget (rt : String) (exec : ToolCall → String)
    (oracle : Nat → ToolChoice → ModelReply) (N : Nat) (hN : 1 ≤ N) :
    (run_response_generator rt exec oracle N).2 ≤ N ∧
    (∀ (budget : Nat) (flag : Bool) (calls : Nat), 1 ≤ budget →
      (∃ out, generate_typed_llm_response_with_tool rt exec oracle budget flag calls
          = (Except.ok (some out), calls + 1)) ∨
      (∃ flag2, generate_typed_llm_response_with_tool rt exec oracle budget flag calls
          = generate_typed_llm_response_with_tool rt exec oracle
              (budget - 1) flag2 (calls + 1))) := by
  constructor
  · have h := generate_tool_calls_le rt exec oracle N false 0
    simpa [run_response_generator] using h
  · intro budget flag calls hb
    obtain ⟨b, rfl⟩ : ∃ b, budget = b + 1 := ⟨budget - 1, by omega⟩
    rw [generate_typed_llm_response_with_tool]
    split
    · next r rest heq => exact Or.inl ⟨r, rfl⟩
    · next heq =>
      right
      refine ⟨flag || (((oracle calls (if b + 1 > 1 ∧ ¬flag then ToolChoice.auto
        else ToolChoice.forced rt)).toolCalls.map
          (fun tc => ToolOut.mk tc.name tc.id (exec tc))).isEmpty), ?_⟩
      simp

/-- Witness for C2 at budget 2 with a tool-free Model Service. -/
theorem claim_C2_witness :
    (run_response_generator "final_answer" (fun _ => "")
        (fun _ _ => ModelReply.mk "m" []) 2).2 ≤ 2 ∧
    (∃ flag2, generate_typed_llm_response_with_tool "final_answer" (fun _ => "")
        (fun _ _ => ModelReply.mk "m" []) 2 false 0
      = generate_typed_llm_response_with_tool "final_answer" (fun _ => "")
        (fun _ _ => ModelReply.mk "m" []) 1 flag2 1) := by
  have h := claim_C2_budget "final_answer" (fun _ => "")
    (fun _ _ => ModelReply.mk "m" []) 2 (by omega)
  refine ⟨h.1, ?_⟩
  rcases h.2 2 false 0 (by omega) with ⟨out, hout⟩ | ⟨flag2, hflag⟩
  · exact absurd hout (by intro hc; simp [generate_typed_llm_response_with_tool] at hc)
  · exact ⟨flag2, hflag⟩

/-! ## `generate_async` (text.py lines 458-533): bulk generation with
repetition-avoiding cache

The inner Response Generator call is abstracted by an oracle
`orc : Nat → List α` giving the list of items produced by the `i`-th
retry.  The Python `while` loop has no counter, so the Lean embedding
carries explicit fuel and returns `none` when the fuel runs out (the
Python loop would simply keep retrying). -/

/-- The `while len(result) != n` loop of `generate_async` (lines 511-526):
re-query until the result has exactly `n` items, truncating any excess
(`result = result[:n]`). -/
def generate_async_loop (orc : Nat → List α) (n : Nat) :
    Nat → List α → Nat → Option (List α)
  | fuel + 1, result, i =>
    if result.length = n then some result
    else
      generate_async_loop orc n fuel
        (if n < (orc i).length then (orc i).take n else orc i) (i + 1)
  | 0, result, _ => if result.length = n then some result else none

/-- `generate_async`'s retry phase, started from `result = [0] * (n + 1)`
(line 510), whose length `n + 1 ≠ n` forces the loop body to run. -/
def generate_async_items (orc : Nat → List α) (n fuel : Nat) (dummy : α) :
    Option (List α) :=
  generate_async_loop orc n fuel (List.replicate (n + 1) dummy) 0

/-- Any list the retry loop returns has length exactly `n`. -/
theorem generate_async_loop_length (orc : Nat → List α) (n : Nat) :
    ∀ (fuel : Nat) (result : List α) (i : Nat) (l : List α),
      generate_async_loop orc n fuel result i = some l → l.length = n := by
  intro fuel
  induction fuel with
  | zero =>
    intro result i l h
    rw [generate_async_loop] at h
    split at h
    · next hlen => cases h; exact hlen
    · cases h
  | succ f ih =>
    intro result i l h
    rw [generate_async_loop] at h
    split at h
    · next hlen => cases h; exact hlen
    · exact ih _ _ _ h

/-- If every retry before index `j` produced fewer than `n` items and the
retry at index `j` produced at least `n`, the loop stops there with the
first `n` of that retry's items. -/
theorem generate_async_loop_first_success (orc : Nat → List α) (n : Nat) (j : Nat) :
    ∀ (fuel : Nat) (result : List α) (i : Nat),
      result.length ≠ n →
      (∀ k, k < j → ((orc (i + k)).length < n)) →
      n ≤ (orc (i + j)).length →
      j < fuel →
      generate_async_loop orc n fuel result i = some ((orc (i + j)).take n) := by
  induction j with
  | zero =>
    intro fuel result i hres _ hj hfuel
    obtain ⟨f, rfl⟩ : ∃ f, fuel = f + 1 := ⟨fuel - 1, by omega⟩
    rw [generate_async_loop]
    rw [if_neg hres]
    simp only [Nat.add_zero] at hj ⊢
    by_cases hgt : n < (orc i).length
    · rw [if_pos hgt]
      have hlen : ((orc i).take n).length = n := by
        rw [List.length_take]; omega
      cases f with
      | zero => rw [generate_async_loop, if_pos hlen]
      | succ f2 => rw [generate_async_loop, if_pos hlen]
    · rw [if_neg hgt]
      have heq : (orc i).take n = orc i := List.take_of_length_le (by omega)
      have hlen : (orc i).length = n := by omega
      rw [heq]
      cases f with
      | zero => rw [generate_async_loop, if_pos hlen]
      | succ f2 => rw [generate_async_loop, if_pos hlen]
  | succ j2 ih =>
    intro fuel result i hres hbefore hj hfuel
    obtain ⟨f, rfl⟩ : ∃ f, fuel = f + 1 := ⟨fuel - 1, by omega⟩
    rw [generate_async_loop]
    rw [if_neg hres]
    have h0 : (orc i).length < n := by
      have := hbefore 0 (by omega)
      simpa using this
    rw [if_neg (by omega)]
    have hstep : ∀ k, k < j2 → (orc (i + 1 + k)).length < n := by
      intro k hk
      have := hbefore (k + 1) (by omega)
      have harith : i + (k + 1) = i + 1 + k := by omega
      rwa [harith] at this
    have harith2 : i + (j2 + 1) = i + 1 + j2 := by omega
    rw [harith2] at hj ⊢
    exact ih f (orc i) (i + 1) (by omega) hstep hj (by omega)

/-- C7: for every call `generate(target=T, n=k)` with `k ≥ 1`, the
returned list has exactly `k` elements: the Response Generator call is
retried until some retry produces at least `k` items (every earlier retry
producing fewer is re-queried), and that retry's items are truncated to
the first `k`. -/
theorem claim_C7_generate_count (orc : Nat → List α) (n : Nat) (dummy : α)
    (hn : 1 ≤ n) (j fuel : Nat)
    (hbefore : ∀ k, k < j → ((orc k).length < n))
    (hj : n ≤ (orc j).length) (hfuel : j < fuel) :
    generate_async_items orc n fuel dummy = some ((orc j).take n) ∧
    (∀ l, generate_async_items orc n fuel dummy = some l → l.length = n) := by
  constructor
  · unfold generate_async_items
    have h := generate_async_loop_first_success orc n j fuel
      (List.replicate (n + 1) dummy) 0 (by simp) (by simpa using hbefore)
      (by simpa using hj) hfuel
    simpa using h
  · intro l hl
    exact generate_async_loop_length orc n fuel _ 0 l hl

/-- Witness for C7: `n = 2`, first retry produces one item, second
produces three; the result is the second retry's first two items. -/
theorem claim_C7_witness :
    generate_async_items (fun i => if i = 0 then [10] else [1, 2, 3]) 2 5 (0 : Int)
      = some [1, 2] ∧
    (∀ l, generate_async_items (fun i => if i = 0 then [10] else [1, 2, 3]) 2 5 (0 : Int)
      = some l → l.length = 2) := by
  have h := claim_C7_generate_count (fun i => if i = 0 then [10] else [1, 2, 3])
    2 (0 : Int) (by omega) 1 5
    (by intro k hk; interval_cases k; simp)
    (by simp) (by omega)
  simpa using h

/-! ## The per-key generation cache (text.py lines 495-533)

One key `(target, instructions, temperature)` of `GENERATE_CACHE` is
modelled: `cache` is the key's deque content, most-recent-first, with
`maxlen=100`.  `count_tokens` is the external tokenizer, an abstract
function `tok`.  The Response Generator oracle now also receives the
`previous_responses` list injected into the prompt. -/

/-- The token-capped selection loop (lines 500-507):
`for r in cached_responses: if tokens > cap: continue;
tokens += count_tokens(r); previous_responses.append(r)`. -/
def select_previous (cap : Nat) (tok : α → Nat) : List α → Nat → List α
  | [], _ => []
  | r :: rs, tokens =>
    if cap < tokens then select_previous cap tok rs tokens
    else r :: select_previous cap tok rs (tokens + tok r)

/-- Observable outcome of one `generate_async` call at one cache key:
the `previous_responses` injected into the prompt, the returned items
(`none` when the retry loop's fuel ran out), and the key's cache content
after the call. -/
structure GenerateCallResult (α : Type) where
  previous_responses : List α
  result : Option (List α)
  new_cache : List α
deriving DecidableEq

/-- One `generate_async` call at a fixed cache key (lines 495-533):
select cached items under the token cap (only when `use_cache`), run the
retry loop, then — only when `use_cache` — record the new items by
`appendleft` into the bounded deque (most-recent-first, capacity 100,
oldest dropped). -/
def generate_async_call (cap : Nat) (tok : α → Nat) (use_cache : Bool)
    (cache : List α) (orc : List α → Nat → List α) (n fuel : Nat) (dummy : α) :
    GenerateCallResult α :=
  match generate_async_items
      (orc (select_previous cap tok (if use_cache then cache else []) 0))
      n fuel dummy with
  | none =>
    GenerateCallResult.mk
      (select_previous cap tok (if use_cache then cache else []) 0) none cache
  | some result =>
    GenerateCallResult.mk
      (select_previous cap tok (if use_cache then cache else []) 0) (some result)
      (if use_cache then (result.reverse ++ cache).take 100 else cache)

/-- When the total token count of the cached items fits under the cap,
the selection loop keeps every cached item. -/
theorem select_previous_all (cap : Nat) (tok : α → Nat) :
    ∀ (l : List α) (tokens : Nat), tokens + (l.map tok).sum ≤ cap →
      select_previous cap tok l tokens = l := by
  intro l
  induction l with
  | nil => intro tokens _; rfl
  | cons r rs ih =>
    intro tokens h
    simp only [List.map_cons, List.sum_cons] at h
    rw [select_previous, if_neg (by omega), ih (tokens + tok r) (by omega)]

/-- C8: for two successive `generate` calls with the same
`(target, instructions, temperature)` key, starting from a fresh (empty)
cache entry: with caching enabled, every item the first call produced
appears among the `previous_responses` injected into the second call's
prompt (the first call's `n ≤ 100` items all fit in the capacity-100
deque and their token counts fit under the cap); with caching disabled,
the injected `previous_responses` list is empty and the cache entry is
left unchanged. -/
theorem claim_C8_cache_repetition (cap : Nat) (tok : α → Nat) (dummy : α)
    (orc1 orc2 : List α → Nat → List α) (n fuel : Nat) (r1 : List α)
    (hn100 : n ≤ 100)
    (hr1 : generate_async_items (orc1 (select_previous cap tok [] 0)) n fuel dummy
      = some r1)
    (htok : (r1.reverse.map tok).sum ≤ cap) :
    ((generate_async_call cap tok true [] orc1 n fuel dummy).result = some r1 ∧
      ∀ x ∈ r1, x ∈ (generate_async_call cap tok true
        ((generate_async_call cap tok true [] orc1 n fuel dummy).new_cache)
        orc2 n fuel dummy).previous_responses) ∧
    (∀ (cache : List α) (orc : List α → Nat → List α),
      (generate_async_call cap tok false cache orc n fuel dummy).previous_responses
          = [] ∧
      (generate_async_call cap tok false cache orc n fuel dummy).new_cache
          = cache) := by
  have hlen : r1.length = n := by
    unfold generate_async_items at hr1
    exact generate_async_loop_length _ n fuel _ 0 r1 hr1
  have hcall1 : generate_async_call cap tok true [] orc1 n fuel dummy
      = GenerateCallResult.mk (select_previous cap tok [] 0) (some r1)
          ((r1.reverse ++ []).take 100) := by
    unfold generate_async_call
    simp only [if_true, hr1]
  have hc1 : (generate_async_call cap tok true [] orc1 n fuel dummy).new_cache
      = r1.reverse := by
    rw [hcall1]
    simp only [List.append_nil]
    exact List.take_of_length_le (by rw [List.length_reverse]; omega)
  have hprev : ∀ (use_cache : Bool) (cache : List α) (orc : List α → Nat → List α),
      (generate_async_call cap tok use_cache cache orc n fuel dummy).previous_responses
        = select_previous cap tok (if use_cache then cache else []) 0 := by
    intro use_cache cache orc
    unfold generate_async_call
    split
    · rfl
    · rfl
  refine ⟨⟨by rw [hcall1], ?_⟩, ?_⟩
  · intro x hx
    rw [hprev, hc1, if_pos rfl,
      select_previous_all cap tok r1.reverse 0 (by omega)]
    exact List.mem_reverse.mpr hx
  · intro cache orc
    constructor
    · unfold generate_async_call
      split
      · next heq => simp [select_previous]
      · next result heq => simp [select_previous]
    · unfold generate_async_call
      split
      · next heq => simp
      · next result heq => simp

/-- Witness for C8: one item per call, unit token counts, generous cap. -/
theorem claim_C8_witness :
    ((generate_async_call 1000 (fun _ => 1) true [] (fun _ _ => [42]) 1 1 (0 : Int)).result
        = some [42] ∧
      ∀ x ∈ [(42 : Int)], x ∈ (generate_async_call 1000 (fun _ => 1) true
        ((generate_async_call 1000 (fun _ => 1) true [] (fun _ _ => [42]) 1 1 (0 : Int)).new_cache)
        (fun _ _ => [7]) 1 1 (0 : Int)).previous_responses) ∧
    (∀ (cache : List Int) (orc : List Int → Nat → List Int),
      (generate_async_call 1000 (fun _ => 1) false cache orc 1 1 (0 : Int)).previous_responses
          = [] ∧
      (generate_async_call 1000 (fun _ => 1) false cache orc 1 1 (0 : Int)).new_cache
          = cache) :=
  claim_C8_cache_repetition 1000 (fun _ => 1) (0 : Int) (fun _ _ => [42]) (fun _ _ => [7])
    1 1 [42] (by omega) (by rfl) (by simp)

/-! ## `func_contract` (text.py lines 1457-1512): the Contract Validator

The wrapped operation is a function from its bound arguments (the
string-keyed dictionary `bound_arguments.arguments` that
`signature.bind(...)` + `apply_defaults()` produce — the Function
Descriptor collaborator) to its result.  A natural-language predicate is
its declared parameter-name list plus a boolean evaluation on a
string-keyed argument dictionary.  Side effects are tracked as an event
trace: `rawCall` is `func(*args, **kwargs)` (line 1475, no pydantic
validation), `validatedCall` is `inner_func(*args, **kwargs)` (line 1496,
the `validate_call`-wrapped operation).

Python dictionary keys are modelled by `PyKey`: the post-condition path
(line 1506) indexes the string-keyed `all_arguments` dictionary with
`inspect.Parameter` objects themselves (`{key: all_arguments[key] ...}`),
not with `key.name` as the pre-condition path does (line 1491), and a
`Parameter` object never equals a string key. -/

/-- A Python dictionary key: either a string, or an `inspect.Parameter`
object (identified by its parameter name, never equal to any string). -/
inductive PyKey where
  | str (s : String)
  | param (name : String)
deriving DecidableEq

/-- Python runtime errors the contract wrapper can hit. -/
inductive PyErr where
  | keyError
  | typeError
deriving DecidableEq

/-- Dictionary lookup in a `PyKey`-keyed dictionary; `none` is `KeyError`. -/
def py_dict_get (d : List (PyKey × V)) (k : PyKey) : Option V :=
  match d with
  | [] => none
  | (k2, v) :: rest => if k2 = k then some v else py_dict_get rest k

/-- Dictionary lookup in the string-keyed `all_arguments` dictionary. -/
def py_str_get (d : List (String × V)) (k : String) : Option V :=
  match d with
  | [] => none
  | (k2, v) :: rest => if k2 = k then some v else py_str_get rest k

/-- The string-keyed `all_arguments` dictionary seen as a Python
dictionary (every key is a `str`). -/
def to_py_dict (args : List (String × V)) : List (PyKey × V) :=
  args.map (fun sv => (PyKey.str sv.1, sv.2))

/-- `arg_names = [param for param in sig.parameters.values() if param.name
in all_arguments.keys()]` (lines 1484-1490 and 1499-1505): the
predicate's declared parameters that are among the bound arguments. -/
def contract_arg_names (sig_params : List String) (args : List (String × V)) :
    List String :=
  sig_params.filter (fun p => (py_str_get args p).isSome)

/-- `pre_dict = {key.name: all_arguments[key.name] for key in arg_names}`
(line 1491): the pre-condition path keys the dictionary by parameter
*name*. -/
def pre_dict (sig_params : List String) (args : List (String × V)) :
    List (String × V) :=
  (contract_arg_names sig_params args).filterMap
    (fun p => (py_str_get args p).map (fun v => (p, v)))

/-- `post_dict = {key: all_arguments[key] for key in arg_names}`
(line 1506): the post-condition path keys — and *indexes* — the
dictionary by the `Parameter` object itself, so every lookup in the
string-keyed `all_arguments` raises `KeyError`. -/
def post_dict_build (sig_params : List String) (args : List (String × V)) :
    Except PyErr (List (PyKey × V)) :=
  (contract_arg_names sig_params args).foldr
    (fun p acc =>
      match acc with
      | Except.error e => Except.error e
      | Except.ok d =>
        match py_dict_get (to_py_dict args) (PyKey.param p) with
        | some v => Except.ok ((PyKey.param p, v) :: d)
        | none => Except.error PyErr.keyError)
    (Except.ok [])

/-- `post(**post_dict)`: keyword expansion demands string keys
(`TypeError` otherwise), then the predicate sees the string-keyed
bindings. -/
def py_kwargs_call (f : List (String × V) → Bool) (d : List (PyKey × V)) :
    Except PyErr Bool :=
  if d.all (fun kv => match kv.1 with
      | PyKey.str _ => true
      | PyKey.param _ => false) then
    Except.ok (f (d.filterMap (fun kv => match kv.1 with
      | PyKey.str s => some (s, kv.2)
      | PyKey.param _ => none)))
  else Except.error PyErr.typeError

/-- A natural-language contract predicate: its signature's declared
parameter names and its boolean evaluation on keyword bindings. -/
structure ContractPred (V : Type) where
  params : List String
  eval : List (String × V) → Bool

/-- Observable events of one wrapped call. -/
inductive FCEvent where
  | rawCall
  | validatedCall
  | preEvaluated
  | postEvaluated
deriving DecidableEq

/-- Errors of the contract wrapper: the two contract violations
(`ValueError("Pre condition not met")`, `ValueError("Post Condition Not
Met")`) and Python runtime errors. -/
inductive FCError where
  | preconditionViolation
  | postconditionViolation
  | pyError (e : PyErr)
deriving DecidableEq

/-- The part of `func_contract`'s `wrapper` from `result =
inner_func(*args, **kwargs)` (line 1496) onward: run the
pydantic-validated operation, then evaluate `post` on `post_dict` with
`result` added under the string key `"result"` (lines 1498-1510). -/
def func_contract_after_pre (f : List (String × V) → V)
    (postOpt : Option (ContractPred V)) (args : List (String × V))
    (events : List FCEvent) : Except FCError V × List FCEvent :=
  match postOpt with
  | none => (Except.ok (f args), events ++ [FCEvent.validatedCall])
  | some post =>
    match post_dict_build post.params args with
    | Except.error e =>
      (Except.error (FCError.pyError e), events ++ [FCEvent.validatedCall])
    | Except.ok d =>
      match py_kwargs_call post.eval (d ++ [(PyKey.str "result", f args)]) with
      | Except.error e =>
        (Except.error (FCError.pyError e), events ++ [FCEvent.validatedCall])
      | Except.ok true =>
        (Except.ok (f args),
          events ++ [FCEvent.validatedCall, FCEvent.postEvaluated])
      | Except.ok false =>
        (Except.error FCError.postconditionViolation,
          events ++ [FCEvent.validatedCall, FCEvent.postEvaluated])

/-- `func_contract`'s `wrapper` (lines 1472-1510): when the process-wide
toggle disables contract evaluation, call the *raw* `func` (line 1475);
otherwise evaluate `pre` on its name-keyed bound arguments, raising
`ValueError("Pre condition not met")` on failure without invoking the
operation, then proceed to the validated call and the post-condition. -/
def func_contract_wrapper (disable_contract : Bool)
    (f : List (String × V) → V)
    (preOpt postOpt : Option (ContractPred V))
    (args : List (String × V)) : Except FCError V × List FCEvent :=
  if disable_contract then
    (Except.ok (f args), [FCEvent.rawCall])
  else
    match preOpt with
    | some pre =>
      if pre.eval (pre_dict pre.params args) then
        func_contract_after_pre f postOpt args [FCEvent.preEvaluated]
      else
        (Except.error FCError.preconditionViolation, [FCEvent.preEvaluated])
    | none => func_contract_after_pre f postOpt args []

/-- Once the wrapped operation runs, `validatedCall` is in the trace. -/
theorem after_pre_validated (f : List (String × V) → V)
    (postOpt : Option (ContractPred V)) (args : List (String × V))
    (events : List FCEvent) :
    FCEvent.validatedCall ∈ (func_contract_after_pre f postOpt args events).2 := by
  unfold func_contract_after_pre
  split
  · simp
  · split
    · simp
    · split
      · simp
      · simp
      · simp

/-- C3: for every `func_contract`-wrapped operation with contract
evaluation enabled (toggle off): if the `pre` predicate evaluates to
false, the call fails with the precondition-violation error and the
wrapped operation is never invoked (neither the raw nor the validated
call event occurs); and whenever the call fails with the
postcondition-violation error, the validated call of the wrapped
operation is in the trace, i.e. the operation executed first. -/
theorem claim_C3_contract_ordering {V : Type} (f : List (String × V) → V)
    (pre : ContractPred V) (postOpt : Option (ContractPred V))
    (args : List (String × V))
    (hpre : pre.eval (pre_dict pre.params args) = false) :
    (func_contract_wrapper false f (some pre) postOpt args
        = (Except.error FCError.preconditionViolation, [FCEvent.preEvaluated]) ∧
      FCEvent.rawCall ∉ (func_contract_wrapper false f (some pre) postOpt args).2 ∧
      FCEvent.validatedCall ∉
        (func_contract_wrapper false f (some pre) postOpt args).2) ∧
    (∀ (preOpt2 postOpt2 : Option (ContractPred V)) (args2 : List (String × V)),
      (func_contract_wrapper false f preOpt2 postOpt2 args2).1
          = Except.error FCError.postconditionViolation →
      FCEvent.validatedCall ∈
        (func_contract_wrapper false f preOpt2 postOpt2 args2).2) := by
  have heval : func_contract_wrapper false f (some pre) postOpt args
      = (Except.error FCError.preconditionViolation, [FCEvent.preEvaluated]) := by
    unfold func_contract_wrapper
    simp [hpre]
  refine ⟨⟨heval, by rw [heval]; simp, by rw [heval]; simp⟩, ?_⟩
  intro preOpt2 postOpt2 args2 hpost
  unfold func_contract_wrapper at hpost ⊢
  simp only [Bool.false_eq_true, if_false] at hpost ⊢
  match preOpt2 with
  | none => exact after_pre_validated f postOpt2 args2 []
  | some pre2 =>
    by_cases hc : pre2.eval (pre_dict pre2.params args2) = true
    · simp only [if_pos hc]
      exact after_pre_validated f postOpt2 args2 [FCEvent.preEvaluated]
    · simp only [if_neg hc] at hpost
      simp at hpost

/-- Witness for C3: identity operation on one argument, a pre predicate
that always rejects, no post predicate. -/
theorem claim_C3_witness :
    (func_contract_wrapper false (fun _ => (0 : Int))
        (some (ContractPred.mk ["x"] (fun _ => false))) none [("x", (1 : Int))]
        = (Except.error FCError.preconditionViolation, [FCEvent.preEvaluated]) ∧
      FCEvent.rawCall ∉ (func_contract_wrapper false (fun _ => (0 : Int))
        (some (ContractPred.mk ["x"] (fun _ => false))) none [("x", (1 : Int))]).2 ∧
      FCEvent.validatedCall ∉ (func_contract_wrapper false (fun _ => (0 : Int))
        (some (ContractPred.mk ["x"] (fun _ => false))) none [("x", (1 : Int))]).2) ∧
    (∀ (preOpt2 postOpt2 : Option (ContractPred Int)) (args2 : List (String × Int)),
      (func_contract_wrapper false (fun _ => (0 : Int)) preOpt2 postOpt2 args2).1
          = Except.error FCError.postconditionViolation →
      FCEvent.validatedCall ∈
        (func_contract_wrapper false (fun _ => (0 : Int)) preOpt2 postOpt2 args2).2) :=
  claim_C3_contract_ordering (fun _ => (0 : Int))
    (ContractPred.mk ["x"] (fun _ => false)) none [("x", (1 : Int))] rfl

/-- C4 (code bug): the wrapped operation `f(x) = x + 1` with a post
predicate declaring `(x, result)`, called with `x = 1` and contracts
enabled.  The spec says `post` is invoked with exactly the bindings
`{x: 1, result: 2}`; the code instead indexes the string-keyed
`all_arguments` dictionary with the `Parameter` object itself
(`all_arguments[key]` at line 1506, where the pre path uses `key.name`),
which raises `KeyError`; the post predicate is never evaluated. -/
theorem claim_C4_post_binding_bug :
    func_contract_wrapper false (fun args => (py_str_get args "x").getD 0 + 1)
      none (some (ContractPred.mk ["x", "result"] (fun _ => true)))
      [("x", (1 : Int))]
      = (Except.error (FCError.pyError PyErr.keyError), [FCEvent.validatedCall]) ∧
    FCEvent.postEvaluated ∉
      (func_contract_wrapper false (fun args => (py_str_get args "x").getD 0 + 1)
        none (some (ContractPred.mk ["x", "result"] (fun _ => true)))
        [("x", (1 : Int))]).2 := by
  constructor
  · rfl
  · intro h
    simp [func_contract_wrapper, func_contract_after_pre, post_dict_build,
      contract_arg_names, py_str_get, py_dict_get, to_py_dict] at h

/-- C5: the claim states that structural (pydantic `validate_call`)
validation applies on every invocation independently of the process-wide
toggle.  Counterexample: with the toggle disabling contract evaluation,
`wrapper` returns `func(*args, **kwargs)` directly (line 1475) — the raw,
unvalidated operation — so the validated call never happens. -/
theorem claim_C5_counterexample :
    (func_contract_wrapper true (fun _ => (1 : Int)) none none []).2
      = [FCEvent.rawCall] ∧
    FCEvent.validatedCall ∉
      (func_contract_wrapper true (fun _ => (1 : Int)) none none []).2 := by
  constructor
  · rfl
  · intro h
    simp [func_contract_wrapper] at h

/-- C5 (amended): structural validation is applied exactly on the
invocations for which the process-wide toggle has contract evaluation
enabled and the pre condition (if any) passes; when the toggle disables
contract evaluation, the raw operation is invoked with no structural
validation at all. -/
theorem claim_C5_amended {V : Type} (f : List (String × V) → V)
    (preOpt postOpt : Option (ContractPred V)) (args : List (String × V)) :
    func_contract_wrapper true f preOpt postOpt args
        = (Except.ok (f args), [FCEvent.rawCall]) ∧
    (∀ pre, preOpt = some pre → pre.eval (pre_dict pre.params args) = true →
      FCEvent.validatedCall ∈
        (func_contract_wrapper false f preOpt postOpt args).2) ∧
    (preOpt = none →
      FCEvent.validatedCall ∈
        (func_contract_wrapper false f preOpt postOpt args).2) := by
  refine ⟨rfl, ?_, ?_⟩
  · intro pre hsome htrue
    subst hsome
    unfold func_contract_wrapper
    simp only [Bool.false_eq_true, if_false, if_pos htrue]
    exact after_pre_validated f postOpt args [FCEvent.preEvaluated]
  · intro hnone
    subst hnone
    unfold func_contract_wrapper
    simp only [Bool.false_eq_true, if_false]
    exact after_pre_validated f postOpt args []

/-- Witness for C5 (amended) with a trivially true pre predicate. -/
theorem claim_C5_witness :
    func_contract_wrapper true (fun _ => (1 : Int))
        (some (ContractPred.mk [] (fun _ => true))) none []
        = (Except.ok 1, [FCEvent.rawCall]) ∧
    (∀ pre, (some (ContractPred.mk [] (fun _ => true)) : Option (ContractPred Int))
          = some pre →
      pre.eval (pre_dict pre.params []) = true →
      FCEvent.validatedCall ∈
        (func_contract_wrapper false (fun _ => (1 : Int))
          (some (ContractPred.mk [] (fun _ => true))) none []).2) ∧
    ((some (ContractPred.mk [] (fun _ => true)) : Option (ContractPred Int)) = none →
      FCEvent.validatedCall ∈
        (func_contract_wrapper false (fun _ => (1 : Int))
          (some (ContractPred.mk [] (fun _ => true))) none []).2) :=
  claim_C5_amended (fun _ => (1 : Int))
    (some (ContractPred.mk [] (fun _ => true))) none []

/-! ## `match_async` (text.py lines 1298-1436): the Matcher

Each `(match_term, match_func)` pair contributes one label (built by the
big `if/elif` chain over the term's shape, lines 1312-1386) and one
continuation; with `fall_through`, a final "None of the above" label.
The Classifier is the oracle choosing an index into the label list; the
source then recovers the branch with `match_labels.index(label)`
(line 1433) — the *first* occurrence of the chosen label text — and runs
exactly that continuation. -/

/-- The shape of a type-valued match discriminator after the
`Annotated`/`Predicate` unwrapping (lines 1343-1353). -/
inductive BaseTy where
  | intTy
  | strTy
  | dictTy
  | listTy
  | listOf (name : String)
  | dictOf (keyName valName : String)
  | modelOf (name : String)
  | otherTy
deriving DecidableEq

/-- A match discriminator: a text template, or a type with an optional
attached natural-language constraint. -/
inductive MDiscr where
  | template (s : String)
  | typeD (t : BaseTy) (constraint : Option String)
deriving DecidableEq

/-- The label text for a type discriminator (lines 1354-1379);
`ValueError("Unrecognized type")` for unsupported shapes. -/
def label_of_base : BaseTy → Except String String
  | BaseTy.intTy => Except.ok "An Integer"
  | BaseTy.strTy => Except.ok "A String"
  | BaseTy.dictTy => Except.ok "A Dictionary"
  | BaseTy.listTy => Except.ok "A list"
  | BaseTy.listOf n => Except.ok ("A list of " ++ n)
  | BaseTy.dictOf k v => Except.ok ("A Dictionary from " ++ k ++ " to " ++ v)
  | BaseTy.modelOf n => Except.ok ("Something of " ++ n ++ " type")
  | BaseTy.otherTy => Except.error "Unrecognized type"

/-- The label for one discriminator: a template is its own label
(line 1313); a type's label optionally gets the constraint suffix
(lines 1380-1385); non-string non-type terms raise
`ValueError("Match Term must be either a string or a type")`. -/
def label_of_discr : MDiscr → Except String String
  | MDiscr.template s => Except.ok s
  | MDiscr.typeD t c =>
    match label_of_base t with
    | Except.error e => Except.error e
    | Except.ok lab =>
      match c with
      | some txt => Except.ok (lab ++ " with the constraint that " ++ txt)
      | none => Except.ok lab

/-- The `match_labels` list accumulated over the discriminators in
supplied order, plus the catch-all label when `fall_through` is given
(lines 1403-1404). -/
def match_labels_of : List MDiscr → Bool → Except String (List String)
  | [], hasFallThrough =>
    Except.ok (if hasFallThrough then ["None of the above"] else [])
  | d :: ds, hasFallThrough =>
    match label_of_discr d with
    | Except.error e => Except.error e
    | Except.ok lab =>
      match match_labels_of ds hasFallThrough with
      | Except.error e => Except.error e
      | Except.ok ls => Except.ok (lab :: ls)

/-- Python's `list.index(x)`: index of the first occurrence. -/
def py_list_index (l : List String) (x : String) : Nat :=
  match l with
  | [] => 0
  | y :: ys => if y = x then 0 else py_list_index ys x + 1

/-- The dispatch of `match_async` (lines 1426-1436): classification over
`match_labels` returns the label string at the constrained index
(`labels[index]`, see the Classifier); `label_index =
match_labels.index(label)`; then `continuations[label_index]` — and only
it — is run.  The result is the list of branch positions whose handler
is invoked. -/
def match_async_run (discrs : List MDiscr) (hasFallThrough : Bool)
    (classifierIdx : Nat) : Except String (List Nat) :=
  match match_labels_of discrs hasFallThrough with
  | Except.error e => Except.error e
  | Except.ok match_labels =>
    match match_labels.get? classifierIdx with
    | none => Except.error "IndexError"
    | some label => Except.ok [py_list_index match_labels label]

/-- `match_labels` has one entry per discriminator, plus the catch-all. -/
theorem match_labels_length (discrs : List MDiscr) (hasFallThrough : Bool)
    (labels : List String)
    (h : match_labels_of discrs hasFallThrough = Except.ok labels) :
    labels.length = discrs.length + (if hasFallThrough then 1 else 0) := by
  induction discrs generalizing labels with
  | nil =>
    rw [match_labels_of] at h
    cases h
    cases hasFallThrough <;> simp
  | cons d ds ih =>
    rw [match_labels_of] at h
    cases hl : label_of_discr d with
    | error e => rw [hl] at h; cases h
    | ok lab =>
      rw [hl] at h
      cases hls : match_labels_of ds hasFallThrough with
      | error e => rw [hls] at h; cases h
      | ok ls =>
        rw [hls] at h
        cases h
        simp only [List.length_cons, ih ls hls]
        omega

/-- On a duplicate-free list, the first occurrence of the element at
position `i` is position `i` itself. -/
theorem py_list_index_get (l : List String) :
    ∀ (i : Nat) (x : String), l.Nodup → l.get? i = some x →
      py_list_index l x = i := by
  induction l with
  | nil => intro i x _ h; simp at h
  | cons y ys ih =>
    intro i x hnodup h
    cases i with
    | zero =>
      simp only [List.get?] at h
      cases h
      simp [py_list_index]
    | succ j =>
      simp only [List.get?] at h
      have hmem : x ∈ ys := List.get?_mem h
      have hne : y ≠ x := by
        intro heq
        subst heq
        exact (List.nodup_cons.mp hnodup).1 hmem
      rw [py_list_index, if_neg hne, ih j x (List.nodup_cons.mp hnodup).2 h]

/-- C6 (amended): for every `match` call with a non-empty list of
discriminators, an optional fallback, and pairwise-distinct constructed
labels: exactly one handler is invoked, the label chosen by
classification is an element of the constructed label set, and the
branch whose handler runs is the one at the classified index — the
position of its discriminator in the supplied order.  (Without
distinctness, the branch of the *first* discriminator with the chosen
label text runs.) -/
theorem claim_C6_match_dispatch (discrs : List MDiscr) (hasFallThrough : Bool)
    (idx : Nat) (labels : List String)
    (hne : discrs ≠ [])
    (hlabels : match_labels_of discrs hasFallThrough = Except.ok labels)
    (hnodup : labels.Nodup)
    (hidx : idx < labels.length) :
    ∃ lab, labels.get? idx = some lab ∧ lab ∈ labels ∧
      match_async_run discrs hasFallThrough idx = Except.ok [idx] ∧
      idx < discrs.length + (if hasFallThrough then 1 else 0) := by
  obtain ⟨lab, hlab⟩ : ∃ lab, labels.get? idx = some lab := by
    rw [List.get?_eq_get hidx]
    exact ⟨labels.get ⟨idx, hidx⟩, rfl⟩
  refine ⟨lab, hlab, List.get?_mem hlab, ?_, ?_⟩
  · unfold match_async_run
    rw [hlabels]
    simp only [hlab, py_list_index_get labels idx lab hnodup hlab]
  · rw [← match_labels_length discrs hasFallThrough labels hlabels]
    exact hidx

/-- Witness for C6 (amended): the spec's scenario labels, classifier
chooses index 1. -/
theorem claim_C6_witness :
    ∃ lab, (["Lights on", "Lights off"] : List String).get? 1 = some lab ∧
      lab ∈ (["Lights on", "Lights off"] : List String) ∧
      match_async_run [MDiscr.template "Lights on", MDiscr.template "Lights off"]
        false 1 = Except.ok [1] ∧
      1 < [MDiscr.template "Lights on", MDiscr.template "Lights off"].length
          + (if false then 1 else 0) :=
  claim_C6_match_dispatch
    [MDiscr.template "Lights on", MDiscr.template "Lights off"] false 1
    ["Lights on", "Lights off"] (by simp) (by rfl) (by decide) (by decide)

/-- C6 (counterexample): with two branches carrying the *same* label
text, the classifier choosing index 1 still dispatches branch 0:
`match_labels.index(label)` recovers the first occurrence, so the
claimed 1:1 mapping between the classified index and the invoked
branch fails. -/
theorem claim_C6_counterexample :
    match_async_run [MDiscr.template "Lights on", MDiscr.template "Lights on"]
        false 1 = Except.ok [0] ∧
    match_async_run [MDiscr.template "Lights on", MDiscr.template "Lights on"]
        false 1 ≠ Except.ok [1] := by
  constructor
  · rfl
  · intro h
    rw [show match_async_run
        [MDiscr.template "Lights on", MDiscr.template "Lights on"] false 1
        = Except.ok [0] from rfl] at h
    simp at h

/-! ## The Classifier decode step
(`_generate_typed_llm_response_with_logit_bias`, text.py lines 246-306)

The constrained single-token conversation yields `label_index =
int(response...content)`; the decode (lines 299-306) is in src/.  The
label derivation `cast_type_to_labels` lives in `marvin._mappings.types`,
which is not under src/, so it is modelled from the spec. -/

/-- The label-set shapes of the fast path: a boolean target, a literal
list of strings, or a typed enum class (name plus member values in
declaration order). -/
inductive LabelSpec where
  | boolLabels
  | listLabels (ls : List String)
  | enumLabels (name : String) (memberValues : List String)
deriving DecidableEq

/-- Modelled from the spec: `cast_type_to_labels` (in
`marvin._mappings.types`, not under src/) derives the ordered label
strings for the prompt — a boolean gives a fixed two-label set, a
literal list its member strings verbatim in order, an enum its members'
value strings in declaration order ("label order is significant and must
be preserved verbatim between prompt construction and response
decoding"). -/
def cast_type_to_labels : LabelSpec → List String
  | LabelSpec.boolLabels => ["false", "true"]
  | LabelSpec.listLabels ls => ls
  | LabelSpec.enumLabels _ vs => vs

/-- A decoded classification result: a boolean, a bare label string, or
a reconstructed member of the caller's typed enum class. -/
inductive LabelVal where
  | boolVal (b : Bool)
  | strVal (s : String)
  | enumMember (enumName : String) (value : String)
deriving DecidableEq

/-- The declared label set as the caller sees it. -/
def declared_label_set : LabelSpec → List LabelVal
  | LabelSpec.boolLabels => [LabelVal.boolVal false, LabelVal.boolVal true]
  | LabelSpec.listLabels ls => ls.map LabelVal.strVal
  | LabelSpec.enumLabels n vs => vs.map (LabelVal.enumMember n)

/-- Decode (lines 299-306): `if labels is bool: return bool(label_index)`
(`0 → False`, any non-zero → `True`); otherwise `result =
label_strings[label_index]`, returned as `labels(result)` when `labels`
is a type (reconstructing the enum member from its value string) and as
the bare string otherwise.  `none` is Python's `IndexError` on an
out-of-range index. -/
def decode_label (labels : LabelSpec) (label_index : Nat) : Option LabelVal :=
  match labels with
  | LabelSpec.boolLabels => some (LabelVal.boolVal (label_index != 0))
  | LabelSpec.listLabels ls => (ls.get? label_index).map LabelVal.strVal
  | LabelSpec.enumLabels n vs => (vs.get? label_index).map (LabelVal.enumMember n)

/-- C9: for every classification whose labels are boolean, a literal
list, or an enum, and whose decoded index is in range, the returned
value is an element of the declared label set; a boolean target decodes
index 0 to false and index 1 to true; otherwise the result is
`labels[index]`, reconstructed as a member of the original label class
when the caller passed a typed enum. -/
theorem claim_C9_classifier_decode (labels : LabelSpec) (idx : Nat)
    (hidx : idx < (cast_type_to_labels labels).length) :
    (∃ v, decode_label labels idx = some v ∧ v ∈ declared_label_set labels) ∧
    (labels = LabelSpec.boolLabels →
      decode_label labels 0 = some (LabelVal.boolVal false) ∧
      decode_label labels 1 = some (LabelVal.boolVal true)) ∧
    (∀ ls s, labels = LabelSpec.listLabels ls → ls.get? idx = some s →
      decode_label labels idx = some (LabelVal.strVal s)) ∧
    (∀ n vs v, labels = LabelSpec.enumLabels n vs → vs.get? idx = some v →
      decode_label labels idx = some (LabelVal.enumMember n v)) := by
  refine ⟨?_, ?_, ?_, ?_⟩
  · cases labels with
    | boolLabels =>
      refine ⟨LabelVal.boolVal (idx != 0), rfl, ?_⟩
      cases h : (idx != 0) <;> simp [declared_label_set]
    | listLabels ls =>
      simp only [cast_type_to_labels] at hidx
      obtain ⟨s, hs⟩ : ∃ s, ls.get? idx = some s := by
        rw [List.get?_eq_get hidx]
        exact ⟨ls.get ⟨idx, hidx⟩, rfl⟩
      refine ⟨LabelVal.strVal s, ?_, ?_⟩
      · simp only [decode_label, hs, Option.map_some']
      · simp only [declared_label_set]
        exact List.mem_map_of_mem LabelVal.strVal (List.get?_mem hs)
    | enumLabels n vs =>
      simp only [cast_type_to_labels] at hidx
      obtain ⟨v, hv⟩ : ∃ v, vs.get? idx = some v := by
        rw [List.get?_eq_get hidx]
        exact ⟨vs.get ⟨idx, hidx⟩, rfl⟩
      refine ⟨LabelVal.enumMember n v, ?_, ?_⟩
      · simp only [decode_label, hv, Option.map_some']
      · simp only [declared_label_set]
        exact List.mem_map_of_mem (LabelVal.enumMember n) (List.get?_mem hv)
  · intro h; subst h; exact ⟨rfl, rfl⟩
  · intro ls s h hs; subst h; simp only [decode_label, hs, Option.map_some']
  · intro n vs v h hv; subst h; simp only [decode_label, hv, Option.map_some']

/-- Witness for C9 at the spec's scenario label set, index 0. -/
theorem claim_C9_witness :
    (∃ v, decode_label (LabelSpec.listLabels ["weather", "sports", "finance"]) 0
        = some v ∧
      v ∈ declared_label_set (LabelSpec.listLabels ["weather", "sports", "finance"])) ∧
    (LabelSpec.listLabels ["weather", "sports", "finance"] = LabelSpec.boolLabels →
      decode_label (LabelSpec.listLabels ["weather", "sports", "finance"]) 0
          = some (LabelVal.boolVal false) ∧
      decode_label (LabelSpec.listLabels ["weather", "sports", "finance"]) 1
          = some (LabelVal.boolVal true)) ∧
    (∀ ls s, LabelSpec.listLabels ["weather", "sports", "finance"]
          = LabelSpec.listLabels ls → ls.get? 0 = some s →
      decode_label (LabelSpec.listLabels ["weather", "sports", "finance"]) 0
          = some (LabelVal.strVal s)) ∧
    (∀ n vs v, LabelSpec.listLabels ["weather", "sports", "finance"]
          = LabelSpec.enumLabels n vs → vs.get? 0 = some v →
      decode_label (LabelSpec.listLabels ["weather", "sports", "finance"]) 0
          = some (LabelVal.enumMember n v)) :=
  claim_C9_classifier_decode (LabelSpec.listLabels ["weather", "sports", "finance"])
    0 (by decide)

/-! ## The target/instructions guard of `cast_async`, `extract_async`
and `generate_async` (text.py lines 340-343, 400-403, 490-493)

Each function opens with the same guard; `proceed` abstracts the rest of
the function body (the classify fast path or the tool-call loop),
returning the produced value together with the number of Model Service
calls it makes.  A raised `ValueError` carries zero Model Service
calls: the guard runs before any model interaction. -/

/-- The Python type expressions relevant to the guards. -/
inductive PyTy where
  | strTy
  | listOf (t : PyTy)
  | named (n : String)
deriving DecidableEq

/-- `cast_async` entry (lines 340-343): raise when both `target` and
`instructions` are `None`; default `target = str` when only
`instructions` is given; then run the rest on the resolved target. -/
def cast_async_entry (target : Option PyTy) (instructions : Option String)
    (proceed : PyTy → α × Nat) : Except String α × Nat :=
  match target, instructions with
  | none, none =>
    (Except.error "Must provide either a target type or instructions.", 0)
  | none, some _ => (Except.ok (proceed PyTy.strTy).1, (proceed PyTy.strTy).2)
  | some t, _ => (Except.ok (proceed t).1, (proceed t).2)

/-- `extract_async` entry (lines 400-411): same guard and default; the
rest of the body targets `list[target]`. -/
def extract_async_entry (target : Option PyTy) (instructions : Option String)
    (proceed : PyTy → α × Nat) : Except String α × Nat :=
  match target, instructions with
  | none, none =>
    (Except.error "Must provide either a target type or instructions.", 0)
  | none, some _ =>
    (Except.ok (proceed (PyTy.listOf PyTy.strTy)).1,
      (proceed (PyTy.listOf PyTy.strTy)).2)
  | some t, _ => (Except.ok (proceed (PyTy.listOf t)).1, (proceed (PyTy.listOf t)).2)

/-- `generate_async` entry (lines 490-493): same guard and default. -/
def generate_async_entry (target : Option PyTy) (instructions : Option String)
    (proceed : PyTy → α × Nat) : Except String α × Nat :=
  match target, instructions with
  | none, none =>
    (Except.error "Must provide either a target type or instructions.", 0)
  | none, some _ => (Except.ok (proceed PyTy.strTy).1, (proceed PyTy.strTy).2)
  | some t, _ => (Except.ok (proceed t).1, (proceed t).2)

/-- C10: for every call to cast, extract or generate: when both the
target and the instructions are absent, the call fails with the value
error before any Model Service interaction (zero model calls); when only
instructions are given, the call proceeds with the target resolved to
the string type (`extract` targeting `list[str]`). -/
theorem claim_C10_target_guard {α : Type} (s : String)
    (proceedC proceedE proceedG : PyTy → α × Nat) :
    (cast_async_entry none none proceedC
        = (Except.error "Must provide either a target type or instructions.", 0) ∧
      extract_async_entry none none proceedE
        = (Except.error "Must provide either a target type or instructions.", 0) ∧
      generate_async_entry none none proceedG
        = (Except.error "Must provide either a target type or instructions.", 0)) ∧
    (cast_async_entry none (some s) proceedC
        = (Except.ok (proceedC PyTy.strTy).1, (proceedC PyTy.strTy).2) ∧
      extract_async_entry none (some s) proceedE
        = (Except.ok (proceedE (PyTy.listOf PyTy.strTy)).1,
            (proceedE (PyTy.listOf PyTy.strTy)).2) ∧
      generate_async_entry none (some s) proceedG
        = (Except.ok (proceedG PyTy.strTy).1, (proceedG PyTy.strTy).2)) :=
  ⟨⟨rfl, rfl, rfl⟩, ⟨rfl, rfl, rfl⟩⟩

end Marvin
